import Mathlib

/-!
# Verification of the idempotent ingestion pipeline

Shallow embedding of the core of the Task-1-CarbonCrunch repository:

* `src/idempotencyHandler.js` — content hashing (`generateEventHash`,
  `normalizeForHashing`), duplicate lookup (`checkDuplicate`) and the four
  storage writers (`storeRawEvent`, `storeNormalizedEvent`, `storeFailedEvent`,
  `logProcessing`);
* `src/normalizer.js` — `Normalizer` (`normalize`, `extractField`,
  `parseNumber`, `parseTimestamp`, `fieldMappings`);
* `src/database.js` — the `transaction` wrapper (BEGIN/COMMIT/ROLLBACK);
* `src/services/eventService.js` — `ingestEvent`, the orchestrator.

Modelling conventions:

* JavaScript values reaching the pipeline are JSON bodies; they are modelled by
  the inductive `JVal`.  JS numbers are IEEE doubles whose JSON source and
  printed form are decimal; they are modelled exactly as decimals (`JSNum`,
  an integer mantissa with a base-10 scale).  `NaN` (producible inside JS but
  not by `JSON.parse`) is a separate constructor.  Floating-point rounding is
  not modelled; none of the verified claims depends on it.
* `crypto.createHash('sha256')...digest('hex')` applies a fixed deterministic
  digest to the serialized canonical form.  The digest input —
  `JSON.stringify(normalizeForHashing(e))` — is taken as the fingerprint here;
  since SHA-256 is a function of this string, equal strings give equal digests,
  so every fingerprint-equality result transports to the real hash.  (Claims of
  fingerprint *inequality* transport up to SHA-256 collisions, which the spec
  itself treats as impossible.)
* Wall-clock reads (`new Date().toISOString()` in the normalizer, SQLite's
  `CURRENT_TIMESTAMP` defaults) are passed in as explicit parameters
  (`now`, `dbNow`).
* The database is the record `DBState` of the four tables; AUTOINCREMENT ids
  are `length + 1` (rows are never deleted, so this coincides with SQLite's
  counter).
-/

/-- A JavaScript number, modelled as the exact decimal `num / 10 ^ scale`.
Values are constructed in canonical form (no trailing zero digits in the
fraction), mirroring JS's shortest round-trip printing of doubles; exponent
display for very large/small magnitudes is outside the modelled domain. -/
structure JSNum where
  num : Int
  scale : Nat
deriving DecidableEq, Repr

/-- The real value of a `JSNum`. -/
def JSNum.toRat (d : JSNum) : ℚ := (d.num : ℚ) / 10 ^ d.scale

mutual
/-- A JSON-ish JavaScript value (the payloads handled by the pipeline).
`jnan` is JS's `NaN`.  `undefined` cannot occur in a parsed JSON body and is
not modelled; object property order is insertion order (JS's reordering of
integer-like keys is irrelevant to the claims and not modelled). -/
inductive JVal where
  | jnull
  | jnan
  | jbool (b : Bool)
  | jnum (d : JSNum)
  | jstr (s : String)
  | jarr (xs : JArr)
  | jobj (fs : JFields)
deriving Repr

/-- The elements of a JS array value. -/
inductive JArr where
  | nil
  | cons (hd : JVal) (tl : JArr)
deriving Repr

/-- The ordered own properties of a JS object value (keys are distinct in any
value produced by `JSON.parse`). -/
inductive JFields where
  | nil
  | cons (k : String) (v : JVal) (tl : JFields)
deriving Repr
end

/-! ## Character-level string helpers

Core `String` routines (`trim`, `toLower`, `splitOn`, `≤`) are implemented over
positions and do not reduce inside the kernel, so the JS string operations are
modelled directly over `List Char`. -/

/-- JS `String.prototype.toLowerCase`, restricted to ASCII case folding (the
payloads and keys in every claim are ASCII). -/
def lowerStr (s : String) : String := String.mk (s.data.map Char.toLower)

/-- JS `String.prototype.trim`: drop leading and trailing whitespace. -/
def trimStr (s : String) : String :=
  String.mk ((s.data.dropWhile Char.isWhitespace).reverse.dropWhile Char.isWhitespace |>.reverse)

/-- The canonicalisation `value.trim().toLowerCase()` applied by
`normalizeForHashing` to every string value. -/
def canonStr (s : String) : String := lowerStr (trimStr s)

/-- Lexicographic `≤` on strings by character code, the order used by
`Array.prototype.sort()` on the (ASCII) key names. -/
def strLeB (a b : String) : Bool :=
  let rec go : List Char → List Char → Bool
    | [], _ => true
    | _ :: _, [] => false
    | c :: cs, d :: ds =>
      if c.toNat < d.toNat then true
      else if d.toNat < c.toNat then false
      else go cs ds
  go a.data b.data

/-! ## JS value primitives -/

/-- JS truthiness: `null`, `NaN`, `0`, `''` and `false` are falsy. -/
def jsTruthy : JVal → Bool
  | .jnull => false
  | .jnan => false
  | .jbool b => b
  | .jnum d => !(d.num == 0)
  | .jstr s => !(s == "")
  | .jarr _ => true
  | .jobj _ => true

/-- Property lookup in an object's field list. -/
def JFields.lookup (k : String) : JFields → Option JVal
  | .nil => none
  | .cons k' v tl => if k' == k then some v else JFields.lookup k tl

/-- JS property access `v[k]` for the names the pipeline reads; on non-objects
the named (non-index) properties it reads are all `undefined`. -/
def jsGet (v : JVal) (k : String) : Option JVal :=
  match v with
  | .jobj fs => fs.lookup k
  | _ => none

def JFields.keys : JFields → List String
  | .nil => []
  | .cons k _ tl => k :: JFields.keys tl

def JArr.length : JArr → Nat
  | .nil => 0
  | .cons _ tl => JArr.length tl + 1

/-- JS `Object.keys`: own enumerable keys; index keys for arrays and strings,
none for the other primitives (`Object.keys(null)` would throw, handled at the
call site). -/
def jsKeys : JVal → List String
  | .jobj fs => fs.keys
  | .jarr xs => (List.range xs.length).map (fun i => toString i)
  | .jstr s => (List.range s.data.length).map (fun i => toString i)
  | _ => []

/-- Left-pad a numeral string with zeros to width `w`. -/
def padZeros (w : Nat) (s : String) : String :=
  String.mk (List.replicate (w - s.data.length) '0') ++ s

/-- JS number-to-string for the modelled decimals: sign, integer digits, and
the fraction digits when the scale is positive (canonical `JSNum`s carry no
trailing fraction zeros, matching JS's shortest printing). -/
def jsNumToString (d : JSNum) : String :=
  let sign := if d.num < 0 then "-" else ""
  let n := d.num.natAbs
  if d.scale == 0 then sign ++ toString n
  else sign ++ toString (n / 10 ^ d.scale) ++ "." ++ padZeros d.scale (toString (n % 10 ^ d.scale))

mutual
/-- JS `String(v)` / template-literal conversion. -/
def jsToString : JVal → String
  | .jnull => "null"
  | .jnan => "NaN"
  | .jbool b => if b then "true" else "false"
  | .jnum d => jsNumToString d
  | .jstr s => s
  | .jarr xs => jsArrToString xs
  | .jobj _ => "[object Object]"

/-- `Array.prototype.toString`: elements joined by commas, `null` rendering
as the empty string. -/
def jsArrToString : JArr → String
  | .nil => ""
  | .cons .jnull .nil => ""
  | .cons x .nil => jsToString x
  | .cons .jnull tl => "," ++ jsArrToString tl
  | .cons x tl => jsToString x ++ "," ++ jsArrToString tl
end

/-! ## Content hasher (`idempotencyHandler.js`, `normalizeForHashing` /
`generateEventHash`) -/

/-- The receipt-metadata keys skipped by `normalizeForHashing`. -/
def isMetaKey (k : String) : Bool :=
  k == "received_at" || k == "created_at" || k == "id"

/-- Drop the receipt-metadata keys from a field list. -/
def JFields.filterMeta : JFields → JFields
  | .nil => .nil
  | .cons k v tl => if isMetaKey k then JFields.filterMeta tl else .cons k v (JFields.filterMeta tl)

/-- Insert a field into a key-sorted field list (insertion step of
`Object.keys(obj).sort()`). -/
def JFields.insertSorted (k : String) (v : JVal) : JFields → JFields
  | .nil => .cons k v .nil
  | .cons k' v' tl =>
    if strLeB k k' then .cons k v (.cons k' v' tl)
    else .cons k' v' (JFields.insertSorted k v tl)

/-- Sort a field list by key (`Object.keys(obj).sort()` followed by rebuilding
the object in that key order). -/
def JFields.keySort : JFields → JFields
  | .nil => .nil
  | .cons k v tl => (JFields.keySort tl).insertSorted k v

mutual
/-- `IdempotencyHandler.normalizeForHashing`: recursively sort object keys,
drop receipt-metadata keys, trim+lowercase string values; arrays keep their
order, other primitives pass through.

The source sorts and filters an object's keys *before* recursing into the
values; here the values are normalised first (for structural recursion) and
the keys then sorted and filtered.  Key sorting and metadata filtering look
only at keys, which value-normalisation preserves, so the results coincide —
proved as `normalizeForHashing_jobj_source_order` below. -/
def normalizeForHashing : JVal → JVal
  | .jnull => .jnull
  | .jnan => .jnan
  | .jbool b => .jbool b
  | .jnum d => .jnum d
  | .jstr s => .jstr (canonStr s)
  | .jarr xs => .jarr (normArr xs)
  | .jobj fs => .jobj ((normFields fs).keySort.filterMeta)

def normArr : JArr → JArr
  | .nil => .nil
  | .cons x xs => .cons (normalizeForHashing x) (normArr xs)

def normFields : JFields → JFields
  | .nil => .nil
  | .cons k v tl => .cons k (normalizeForHashing v) (normFields tl)
end

/-- JSON string escaping (`JSON.stringify` of a string value). -/
def jsonEscapeChar (c : Char) : String :=
  if c == '"' then "\\\""
  else if c == '\\' then "\\\\"
  else if c == '\n' then "\\n"
  else if c == '\r' then "\\r"
  else if c == '\t' then "\\t"
  else String.mk [c]

def jsonQuote (s : String) : String :=
  "\"" ++ String.join (s.data.map jsonEscapeChar) ++ "\""

mutual
/-- `JSON.stringify` on the modelled values (numbers print as their canonical
decimals, `NaN` serialises as `null`). -/
def stringify : JVal → String
  | .jnull => "null"
  | .jnan => "null"
  | .jbool b => if b then "true" else "false"
  | .jnum d => jsNumToString d
  | .jstr s => jsonQuote s
  | .jarr xs => "[" ++ stringifyArr xs ++ "]"
  | .jobj fs => "\x7b" ++ stringifyFields fs ++ "\x7d"

def stringifyArr : JArr → String
  | .nil => ""
  | .cons x .nil => stringify x
  | .cons x (.cons y tl) => stringify x ++ "," ++ stringifyArr (.cons y tl)

def stringifyFields : JFields → String
  | .nil => ""
  | .cons k v .nil => jsonQuote k ++ ":" ++ stringify v
  | .cons k v (.cons k' v' tl) =>
    jsonQuote k ++ ":" ++ stringify v ++ "," ++ stringifyFields (.cons k' v' tl)
end

/-- `IdempotencyHandler.generateEventHash`: the SHA-256 hex digest of
`JSON.stringify(normalizeForHashing(rawEvent))`.  The digest input itself
stands in for the digest (see the module header). -/
def generateEventHash (rawEvent : JVal) : String :=
  stringify (normalizeForHashing rawEvent)


/-! ## Date model

`new Date(string)` /`toISOString`.  ECMA-262 requires only the ISO-8601 date
time string format for `Date.parse`; other inputs are implementation-defined
fallbacks and are modelled as invalid (the spec's "standard date/time parser").
Per the repository's stated assumption ("timestamps without timezone
information are assumed to be UTC") the modelled process timezone is UTC.
Epochs are integer milliseconds. -/

/-- Split a character list at every occurrence of `sep` (occurrences removed). -/
def splitOnChar (sep : Char) : List Char → List (List Char)
  | [] => [[]]
  | c :: rest =>
    let r := splitOnChar sep rest
    if c == sep then [] :: r
    else
      match r with
      | [] => [[c]]
      | hd :: tl => (c :: hd) :: tl

/-- Split at the first occurrence of `sep` (removed); `none` if absent. -/
def splitAtChar (sep : Char) : List Char → Option (List Char × List Char)
  | [] => none
  | c :: rest =>
    if c == sep then some ([], rest)
    else (splitAtChar sep rest).map (fun p => (c :: p.1, p.2))

def digitsToNat (acc : Nat) : List Char → Nat
  | [] => acc
  | c :: cs => digitsToNat (acc * 10 + (c.toNat - '0'.toNat)) cs

/-- Parse a non-empty all-digit character run. -/
def parseNatDigits (cs : List Char) : Option Nat :=
  if cs.isEmpty then none
  else if cs.all Char.isDigit then some (digitsToNat 0 cs) else none

def isLeapYear (y : Int) : Bool :=
  (y % 4 == 0 && !(y % 100 == 0)) || y % 400 == 0

def daysInMonth (y : Int) (m : Nat) : Nat :=
  if m == 2 then (if isLeapYear y then 29 else 28)
  else if m == 4 || m == 6 || m == 9 || m == 11 then 30
  else 31

/-- Days since 1970-01-01 of the civil date `y-m-d` (proleptic Gregorian). -/
def daysFromCivil (y : Int) (m d : Nat) : Int :=
  let y' : Int := if m ≤ 2 then y - 1 else y
  let era : Int := y'.fdiv 400
  let yoe : Nat := (y' - era * 400).toNat
  let mp : Nat := (m + 9) % 12
  let doy : Nat := (153 * mp + 2) / 5 + d - 1
  let doe : Nat := yoe * 365 + yoe / 4 - yoe / 100 + doy
  era * 146097 + (doe : Int) - 719468

/-- Civil date `(y, m, d)` of a day count since 1970-01-01. -/
def civilFromDays (z0 : Int) : Int × Nat × Nat :=
  let z := z0 + 719468
  let era : Int := z.fdiv 146097
  let doe : Nat := (z - era * 146097).toNat
  let yoe : Nat := (doe - doe / 1460 + doe / 36524 - doe / 146096) / 365
  let doy : Nat := doe - (365 * yoe + yoe / 4 - yoe / 100)
  let mp : Nat := (5 * doy + 2) / 153
  let d : Nat := doy - (153 * mp + 2) / 5 + 1
  let m : Nat := if mp < 10 then mp + 3 else mp - 9
  (era * 400 + (yoe : Int) + (if m ≤ 2 then 1 else 0), m, d)

def pad2 (n : Nat) : String := padZeros 2 (toString n)

/-- `Date.prototype.toISOString` for epochs with four-digit years (the only
ones reachable in the claims; expanded-year formatting is not modelled). -/
def toISOString (ms : Int) : String :=
  let days : Int := ms.fdiv 86400000
  let rem : Nat := (ms - days * 86400000).toNat
  let ymd := civilFromDays days
  padZeros 4 (toString ymd.1.toNat) ++ "-" ++ pad2 ymd.2.1 ++ "-" ++ pad2 ymd.2.2 ++ "T" ++
    pad2 (rem / 3600000) ++ ":" ++ pad2 (rem / 60000 % 60) ++ ":" ++ pad2 (rem / 1000 % 60) ++
    "." ++ padZeros 3 (toString (rem % 1000)) ++ "Z"

/-- The date part `YYYY[-MM[-DD]]` of the ISO format (month and day ranges
validated, as the JS engine does for ISO strings). -/
def parseDatePart (cs : List Char) : Option Int :=
  match splitOnChar '-' cs with
  | [ys] => do
    let y ← parseNatDigits ys
    if ys.length == 4 then some (daysFromCivil y 1 1) else none
  | [ys, ms] => do
    let y ← parseNatDigits ys
    let m ← parseNatDigits ms
    if ys.length == 4 && ms.length == 2 && 1 ≤ m && m ≤ 12 then
      some (daysFromCivil y m 1)
    else none
  | [ys, ms, ds] => do
    let y ← parseNatDigits ys
    let m ← parseNatDigits ms
    let d ← parseNatDigits ds
    if ys.length == 4 && ms.length == 2 && ds.length == 2 && 1 ≤ m && m ≤ 12 &&
        1 ≤ d && d ≤ daysInMonth y m then
      some (daysFromCivil y m d)
    else none
  | _ => none

/-- The clock part `HH:mm[:ss[.fff]]` as milliseconds of day. -/
def parseTimeCore (cs : List Char) : Option Nat :=
  match splitOnChar ':' cs with
  | [hs, mins] => do
    let h ← parseNatDigits hs
    let m ← parseNatDigits mins
    if hs.length == 2 && mins.length == 2 && h ≤ 23 && m ≤ 59 then
      some (h * 3600000 + m * 60000)
    else none
  | [hs, mins, sf] => do
    let h ← parseNatDigits hs
    let m ← parseNatDigits mins
    let (ss, fr) ←
      match splitAtChar '.' sf with
      | none => pure (sf, ([] : List Char))
      | some (a, b) => if b.isEmpty then none else pure (a, b)
    let sec ← parseNatDigits ss
    let milli ←
      if fr.isEmpty then pure 0
      else if fr.all Char.isDigit then pure (digitsToNat 0 ((fr ++ ['0', '0', '0']).take 3))
      else none
    if hs.length == 2 && mins.length == 2 && ss.length == 2 && h ≤ 23 && m ≤ 59 && sec ≤ 59 then
      some (h * 3600000 + m * 60000 + sec * 1000 + milli)
    else none
  | _ => none

/-- A `±HH:mm` timezone offset, in milliseconds. -/
def parseOffsetPart (cs : List Char) : Option Nat :=
  match splitOnChar ':' cs with
  | [hs, mins] => do
    let h ← parseNatDigits hs
    let m ← parseNatDigits mins
    if hs.length == 2 && mins.length == 2 && h ≤ 23 && m ≤ 59 then
      some (h * 3600000 + m * 60000)
    else none
  | _ => none

/-- The time-of-day part of an ISO date-time, adjusted by its timezone
designator (`Z`, `±HH:mm`, or absent — absent means the process timezone,
UTC here, see the section header). -/
def parseTimePart (cs : List Char) : Option Int :=
  match cs.getLast? with
  | none => none
  | some 'Z' => (parseTimeCore cs.dropLast).map (fun t => (t : Int))
  | some _ =>
    match splitAtChar '+' cs with
    | some (t, o) => do
      let tm ← parseTimeCore t
      let om ← parseOffsetPart o
      pure ((tm : Int) - (om : Int))
    | none =>
      match splitAtChar '-' cs with
      | some (t, o) => do
        let tm ← parseTimeCore t
        let om ← parseOffsetPart o
        pure ((tm : Int) + (om : Int))
      | none => (parseTimeCore cs).map (fun t => (t : Int))

/-- `Date.parse` on strings: the required ISO-8601 Date Time String Format
(date, or date `T` time), yielding epoch milliseconds; everything else is an
invalid date. -/
def jsDateParse (s : String) : Option Int :=
  match splitOnChar 'T' s.data with
  | [d] => (parseDatePart d).map (fun days => days * 86400000)
  | [d, t] => do
    let days ← parseDatePart d
    let tm ← parseTimePart t
    pure (days * 86400000 + tm)
  | _ => none

/-- The regex test `/^\d\x7b4\x7d\/\d\x7b2\x7d\/\d\x7b2\x7d$/` (YYYY/MM/DD). -/
def matchesYMDSlash (s : String) : Bool :=
  match splitOnChar '/' s.data with
  | [a, b, c] =>
    a.length == 4 && b.length == 2 && c.length == 2 &&
      a.all Char.isDigit && b.all Char.isDigit && c.all Char.isDigit
  | _ => false

/-- The regex test for the `DD/MM/YYYY` pattern. -/
def matchesDMYSlash (s : String) : Bool :=
  match splitOnChar '/' s.data with
  | [a, b, c] =>
    a.length == 2 && b.length == 2 && c.length == 4 &&
      a.all Char.isDigit && b.all Char.isDigit && c.all Char.isDigit
  | _ => false

def slashParts (s : String) : List String :=
  (splitOnChar '/' s.data).map String.mk

/-- The template `` `${year}-${month}-${day}T00:00:00Z` `` rebuilt from the
split parts. -/
def rebuildIsoMidnight (y m d : String) : String :=
  y ++ "-" ++ m ++ "-" ++ d ++ "T00:00:00Z"

/-- `Normalizer.parseTimestamp`: falsy values are `null`; otherwise try
`new Date(value)` as-is, then the `YYYY/MM/DD` and `DD/MM/YYYY` patterns
rebuilt as UTC midnight; a valid date is returned as `toISOString()`.
Numbers are epoch milliseconds (fractions truncated); arrays/objects (which
JS would coerce through `toString`) are outside the modelled domain. -/
def parseTimestamp (value : JVal) : Option String :=
  if !(jsTruthy value) then none
  else
    let firstTry : Option Int :=
      match value with
      | .jstr s => jsDateParse s
      | .jnum d => some (d.num.tdiv ((10 : Int) ^ d.scale))
      | .jbool _ => some 1
      | _ => none
    let date : Option Int :=
      match firstTry with
      | some m => some m
      | none =>
        match value with
        | .jstr s =>
          if matchesYMDSlash s then
            match slashParts s with
            | [y, m, d] => jsDateParse (rebuildIsoMidnight y m d)
            | _ => none
          else if matchesDMYSlash s then
            match slashParts s with
            | [d, m, y] => jsDateParse (rebuildIsoMidnight y m d)
            | _ => none
          else none
        | _ => none
    date.map toISOString

/-! ## Number parsing (`Normalizer.parseNumber`) -/

/-- `value.replace(/[,$]/g, '')`. -/
def stripCommasDollars (s : String) : String :=
  String.mk (s.data.filter (fun c => !(c == ',' || c == '$')))

/-- Canonicalise `n / 10 ^ scale` by removing trailing zero fraction digits
(recursion on the scale). -/
def canonDecimal : Int → Nat → JSNum
  | n, 0 => ⟨n, 0⟩
  | n, k + 1 => if n % 10 == 0 then canonDecimal (n / 10) k else ⟨n, k + 1⟩

/-- JS `parseFloat`: longest valid prefix `[+-]?digits[.digits][eE[+-]?digits]`
(`Infinity` literals are outside the modelled domain); `none` is `NaN`.
The result is the exact decimal value, canonicalised as JS prints the double. -/
def jsParseFloat (s : String) : Option JSNum :=
  let cs := s.data.dropWhile Char.isWhitespace
  let signedTail : Bool × List Char :=
    match cs with
    | '-' :: rest => (true, rest)
    | '+' :: rest => (false, rest)
    | _ => (false, cs)
  let negB := signedTail.1
  let cs1 := signedTail.2
  let intDigits := cs1.takeWhile Char.isDigit
  let cs2 := cs1.dropWhile Char.isDigit
  let fracTail : List Char × List Char :=
    match cs2 with
    | '.' :: rest => (rest.takeWhile Char.isDigit, rest.dropWhile Char.isDigit)
    | _ => ([], cs2)
  let fracDigits := fracTail.1
  let cs3 := fracTail.2
  if intDigits.isEmpty && fracDigits.isEmpty then none
  else
    let mant : Nat := digitsToNat 0 (intDigits ++ fracDigits)
    let expVal : Int :=
      match cs3 with
      | e :: rest =>
        if e == 'e' || e == 'E' then
          let expTail : Bool × List Char :=
            match rest with
            | '-' :: r => (true, r)
            | '+' :: r => (false, r)
            | _ => (false, rest)
          let eds := expTail.2.takeWhile Char.isDigit
          if eds.isEmpty then 0
          else if expTail.1 then -(digitsToNat 0 eds : Int) else (digitsToNat 0 eds : Int)
        else 0
      | [] => 0
    let signed : Int := if negB then -(mant : Int) else (mant : Int)
    let e' : Int := expVal - (fracDigits.length : Int)
    if 0 ≤ e' then some (canonDecimal (signed * 10 ^ e'.toNat) 0)
    else some (canonDecimal signed (-e').toNat)

/-- `Normalizer.parseNumber`: numbers pass through (`NaN` becomes `null`);
strings are stripped of `,` and `$`, trimmed, and parsed with `parseFloat`;
every other type is `null`. -/
def parseNumber : JVal → Option JSNum
  | .jnum d => some d
  | .jnan => none
  | .jstr s => jsParseFloat (trimStr (stripCommasDollars s))
  | _ => none

/-! ## Normalizer (`normalizer.js`) -/

/-- `Normalizer.fieldMappings` (the constructor's configuration). -/
def fieldMappings : String → List String
  | "client_id" => ["source", "client", "client_id", "clientId", "sender"]
  | "metric" => ["metric", "type", "event_type", "eventType", "name"]
  | "amount" => ["amount", "value", "quantity", "total", "sum"]
  | "timestamp" => ["timestamp", "time", "date", "created_at", "createdAt", "event_time"]
  | c => [c]

/-- `Normalizer.extractField`: the first alias whose value is present and
neither `undefined`, `null` nor `''`; `null` when `obj` itself is falsy. -/
def extractField (obj : JVal) (canonicalName : String) : Option JVal :=
  if !(jsTruthy obj) then none
  else
    (fieldMappings canonicalName).findSome? fun name =>
      match jsGet obj name with
      | some .jnull => none
      | some (.jstr "") => none
      | some v => some v
      | none => none

/-- `const payload = rawEvent.payload || rawEvent`. -/
def payloadOf (e : JVal) : JVal :=
  match jsGet e "payload" with
  | some p => if jsTruthy p then p else e
  | none => e

def jsIsNull : JVal → Bool
  | .jnull => true
  | _ => false

/-- The canonical normalized record built by `normalize`. -/
structure Canonical where
  client_id : String
  metric : String
  amount : JSNum
  timestamp : String
deriving DecidableEq, Repr

/-- The `{ success, data, errors, warnings }` result of `normalize`. -/
structure NormResult where
  success : Bool
  data : Option Canonical
  errors : List String
  warnings : List String
deriving DecidableEq, Repr

def knownRootFields : List String :=
  ["source", "client", "client_id", "clientId", "sender", "payload"]

def knownPayloadFields : List String :=
  ["metric", "type", "event_type", "eventType", "name",
   "amount", "value", "quantity", "total", "sum",
   "timestamp", "time", "date", "created_at", "createdAt", "event_time"]

/-- `Normalizer.normalize`.  `now` models `new Date().toISOString()`.  Errors
and warnings appear in the source's push order (client, metric, amount,
timestamp; then amount-coercion, timestamp, unknown-root, unknown-payload
warnings).  The source wraps the body in try/catch; the only reachable throw
is the property access `rawEvent.payload` on a `null` event, modelled by the
first branch.  On success the three `getD` defaults are never taken (an empty
error list forces every field to be populated). -/
def Normalizer.normalize (rawEvent : JVal) (now : String) : NormResult :=
  if jsIsNull rawEvent then
    { success := false, data := none,
      errors := ["Normalization exception: Cannot read properties of null (reading 'payload')"],
      warnings := [] }
  else
    let clientIdOpt := extractField rawEvent "client_id"
    let clientErrs : List String :=
      match clientIdOpt with
      | some v => if jsTruthy v then [] else ["Missing required field: client_id (or equivalent)"]
      | none => ["Missing required field: client_id (or equivalent)"]
    let clientVal : Option String :=
      match clientIdOpt with
      | some v => if jsTruthy v then some (jsToString v) else none
      | none => none
    let payload := payloadOf rawEvent
    let metricOpt := extractField payload "metric"
    let metricErrs : List String :=
      match metricOpt with
      | some v => if jsTruthy v then [] else ["Missing required field: metric (or equivalent)"]
      | none => ["Missing required field: metric (or equivalent)"]
    let metricVal : Option String :=
      match metricOpt with
      | some v => if jsTruthy v then some (jsToString v) else none
      | none => none
    let amountOpt := extractField payload "amount"
    let amountErrs : List String :=
      match amountOpt with
      | none => ["Missing required field: amount (or equivalent)"]
      | some v =>
        match parseNumber v with
        | none => ["Invalid amount value: " ++ jsToString v ++ " (cannot be converted to number)"]
        | some _ => []
    let amountVal : Option JSNum :=
      match amountOpt with
      | none => none
      | some v => parseNumber v
    let amountWarns : List String :=
      match amountOpt with
      | some (.jstr s) =>
        match parseNumber (.jstr s) with
        | some p =>
          ["Amount was provided as string \"" ++ s ++ "\", converted to " ++ jsNumToString p]
        | none => []
      | _ => []
    let tsOpt := extractField payload "timestamp"
    let tsTruthy : Option JVal :=
      match tsOpt with
      | some v => if jsTruthy v then some v else none
      | none => none
    let tsErrs : List String :=
      match tsTruthy with
      | none => []
      | some t =>
        match parseTimestamp t with
        | none => ["Invalid timestamp format: " ++ jsToString t]
        | some _ => []
    let tsVal : String :=
      match tsTruthy with
      | none => now
      | some t =>
        match parseTimestamp t with
        | none => now
        | some p => p
    let tsWarns : List String :=
      match tsTruthy with
      | none => ["Missing timestamp field, using current time as fallback"]
      | some t =>
        match parseTimestamp t with
        | none => ["Using current time due to invalid timestamp"]
        | some p =>
          if (match t with | .jstr s => s == p | _ => false) then []
          else ["Timestamp normalized from \"" ++ jsToString t ++ "\" to \"" ++ p ++ "\""]
    let rootWarns : List String :=
      ((jsKeys rawEvent).filter (fun k => !(knownRootFields.contains k))).map
        (fun k => "Unknown field at root level: " ++ k)
    let payloadWarns : List String :=
      ((jsKeys payload).filter (fun k => !(knownPayloadFields.contains k))).map
        (fun k => "Unknown field in payload: " ++ k)
    let errors := clientErrs ++ metricErrs ++ amountErrs ++ tsErrs
    let warnings := amountWarns ++ tsWarns ++ rootWarns ++ payloadWarns
    if errors.isEmpty then
      { success := true,
        data := some { client_id := clientVal.getD "", metric := metricVal.getD "",
                       amount := amountVal.getD ⟨0, 0⟩, timestamp := tsVal },
        errors := [], warnings := warnings }
    else
      { success := false, data := none, errors := errors, warnings := warnings }

/-! ## Storage model (`database.js` tables + `idempotencyHandler.js` writers)

The four tables of `initializeTables`, with AUTOINCREMENT ids modelled as
`length + 1` (rows are never deleted).  `dbNow` models the
`CURRENT_TIMESTAMP` column defaults of the statements run in one call. -/

/-- A `raw_events` row. -/
structure RawRow where
  id : Nat
  event_hash : String
  raw_data : String
  received_at : String
deriving DecidableEq, Repr

/-- A `normalized_events` row (the insert always sets `status = 'processed'`). -/
structure NormRow where
  id : Nat
  raw_event_id : Nat
  client_id : String
  metric : String
  amount : JSNum
  timestamp : String
  status : String
deriving DecidableEq, Repr

/-- A `failed_events` row (`raw_event_id` is nullable). -/
structure FailedRow where
  id : Nat
  raw_event_id : Option Nat
  event_hash : String
  raw_data : String
  error_message : String
  error_type : String
  failed_at : String
deriving DecidableEq, Repr

/-- A `processing_log` row. -/
structure LogRow where
  id : Nat
  event_hash : String
  action : String
  status : String
  message : Option String
deriving DecidableEq, Repr

/-- The persisted database state. -/
structure DBState where
  rawEvents : List RawRow
  normalizedEvents : List NormRow
  failedEvents : List FailedRow
  processingLog : List LogRow
deriving DecidableEq, Repr

def emptyDB : DBState := ⟨[], [], [], []⟩

/-- What `IdempotencyHandler.checkDuplicate` returns on a hit (the joined row
of the `SELECT ... FROM raw_events LEFT JOIN normalized_events ... LIMIT 1`;
`data` is `null` when no normalized row joined). -/
structure DupInfo where
  rawEventId : Nat
  normalizedId : Option Nat
  status : Option String
  firstSeenAt : String
  data : Option Canonical
deriving DecidableEq, Repr

/-- `IdempotencyHandler.checkDuplicate`. -/
def checkDuplicate (s : DBState) (eventHash : String) : Option DupInfo :=
  (s.rawEvents.find? (fun r => r.event_hash == eventHash)).map fun r =>
    match s.normalizedEvents.find? (fun n => n.raw_event_id == r.id) with
    | some n =>
      { rawEventId := r.id, normalizedId := some n.id, status := some n.status,
        firstSeenAt := r.received_at,
        data := some ⟨n.client_id, n.metric, n.amount, n.timestamp⟩ }
    | none =>
      { rawEventId := r.id, normalizedId := none, status := none,
        firstSeenAt := r.received_at, data := none }

/-- `IdempotencyHandler.logProcessing`. -/
def logProcessing (s : DBState) (eventHash action status : String)
    (message : Option String) : DBState :=
  { s with processingLog :=
      s.processingLog ++ [⟨s.processingLog.length + 1, eventHash, action, status, message⟩] }

/-- `IdempotencyHandler.storeRawEvent`: insert, with a UNIQUE-constraint
violation on `event_hash` caught and turned into `null`. -/
def storeRawEvent (s : DBState) (eventHash : String) (rawData : JVal)
    (dbNow : String) : Option Nat × DBState :=
  if s.rawEvents.any (fun r => r.event_hash == eventHash) then (none, s)
  else
    let rid := s.rawEvents.length + 1
    (some rid,
     { s with rawEvents := s.rawEvents ++ [⟨rid, eventHash, stringify rawData, dbNow⟩] })

/-- `IdempotencyHandler.storeNormalizedEvent` (status `'processed'`). -/
def storeNormalizedEvent (s : DBState) (rawEventId : Nat) (c : Canonical) : Nat × DBState :=
  let nid := s.normalizedEvents.length + 1
  (nid,
   { s with normalizedEvents := s.normalizedEvents ++
       [⟨nid, rawEventId, c.client_id, c.metric, c.amount, c.timestamp, "processed"⟩] })

/-- `IdempotencyHandler.storeFailedEvent`. -/
def storeFailedEvent (s : DBState) (rawEventId : Option Nat) (eventHash : String)
    (rawData : JVal) (errorMessage errorType : String) (dbNow : String) : DBState :=
  { s with failedEvents := s.failedEvents ++
      [⟨s.failedEvents.length + 1, rawEventId, eventHash, stringify rawData,
        errorMessage, errorType, dbNow⟩] }

/-! ## Transaction wrapper (`database.js`) -/

/-- `DatabaseManager.transaction`: run the callback against the live state;
on a throw, `ROLLBACK` — the caller observes the pre-call state and the
re-thrown error; on success, `COMMIT` the callback's writes. -/
def DatabaseManager.transaction {α : Type}
    (callback : DBState → Except String (α × DBState)) (s : DBState) :
    Except String α × DBState :=
  match callback s with
  | .ok (a, s') => (.ok a, s')
  | .error e => (.error e, s)

/-! ## Ingestion orchestrator (`eventService.js`) -/

/-- The result object of `ingestEvent` (one flat shape; fields absent from a
given JS branch keep their defaults). -/
structure IngestResult where
  status : Nat
  success : Bool
  message : String
  isDuplicate : Bool := false
  eventHash : String
  firstSeenAt : Option String := none
  data : Option Canonical := none
  errors : List String := []
  warnings : List String := []
  rawEventId : Option Nat := none
  normalizedEventId : Option Nat := none
  error : Option String := none
  retryable : Bool := false
deriving DecidableEq, Repr

/-- The callback passed to `this.db.transaction` in STEP 3 of `ingestEvent`:
store the raw event (throwing on a `null` id), optionally throw the simulated
failure, then store the normalized event. -/
def processTransaction (eventHash : String) (raw : JVal) (normalized : Canonical)
    (simulateFailure : Bool) (dbNow : String) (s : DBState) :
    Except String ((Nat × Nat) × DBState) :=
  match storeRawEvent s eventHash raw dbNow with
  | (none, _) => .error "Failed to store raw event (possible race condition)"
  | (some rawEventId, s1) =>
    if simulateFailure then .error "Simulated database failure"
    else
      let r2 := storeNormalizedEvent s1 rawEventId normalized
      .ok ((rawEventId, r2.1), r2.2)

/-- `EventService.ingestEvent`.  `now` models `new Date().toISOString()` inside
the normalizer and `dbNow` the `CURRENT_TIMESTAMP` defaults; both are fixed for
the duration of one call.  The source's outermost catch (the "Unexpected
error" branch) is unreachable in the model: none of the modelled operations
throws outside the transaction wrapper.  On the success path
`nr.data.getD ...` is never the default (success forces `data = some _`,
`Normalizer.normalize_success_data` below). -/
def ingestEvent (rawEvent : JVal) (simulateFailure : Bool) (now dbNow : String)
    (s0 : DBState) : IngestResult × DBState :=
  let eventHash := generateEventHash rawEvent
  let s1 := logProcessing s0 eventHash "ingest" "started" none
  match checkDuplicate s1 eventHash with
  | some dup =>
    let s2 := logProcessing s1 eventHash "ingest" "duplicate" (some "Event already processed")
    ({ status := 200, success := true,
       message := "Event already processed (duplicate detected)",
       isDuplicate := true, eventHash := eventHash,
       firstSeenAt := some dup.firstSeenAt, data := dup.data }, s2)
  | none =>
    let nr := Normalizer.normalize rawEvent now
    if !nr.success then
      let stored := storeRawEvent s1 eventHash rawEvent dbNow
      let s3 :=
        match stored.1 with
        | some rid =>
          storeFailedEvent stored.2 (some rid) eventHash rawEvent
            (String.intercalate "; " nr.errors) "validation_error" dbNow
        | none => stored.2
      let s4 := logProcessing s3 eventHash "normalize" "failed"
        (some (String.intercalate "; " nr.errors))
      ({ status := 400, success := false, message := "Event validation failed",
         errors := nr.errors, warnings := nr.warnings, eventHash := eventHash }, s4)
    else
      match DatabaseManager.transaction
          (processTransaction eventHash rawEvent (nr.data.getD ⟨"", "", ⟨0, 0⟩, ""⟩)
            simulateFailure dbNow) s1 with
      | (.ok ids, s2) =>
        let s3 := logProcessing s2 eventHash "ingest" "success"
          (some "Event processed successfully")
        ({ status := 201, success := true, message := "Event processed successfully",
           eventHash := eventHash, rawEventId := some ids.1,
           normalizedEventId := some ids.2, data := nr.data,
           warnings := nr.warnings }, s3)
      | (.error msg, s2) =>
        let s3 := logProcessing s2 eventHash "persist" "failed" (some msg)
        let stored := storeRawEvent s3 eventHash rawEvent dbNow
        let s5 :=
          match stored.1 with
          | some rid =>
            storeFailedEvent stored.2 (some rid) eventHash rawEvent msg
              "persistence_error" dbNow
          | none => stored.2
        ({ status := 500, success := false, message := "Database error occurred",
           error := some msg, eventHash := eventHash, retryable := true }, s5)

/-! ## The hasher's equivalence: payloads differing only in key order,
string case/whitespace, or receipt-metadata keys -/

theorem normFields_filterMeta : ∀ fs : JFields,
    normFields fs.filterMeta = (normFields fs).filterMeta
  | .nil => rfl
  | .cons k v tl => by
    by_cases h : isMetaKey k = true
    · simp [JFields.filterMeta, normFields, h, normFields_filterMeta tl]
    · simp [JFields.filterMeta, normFields, h, normFields_filterMeta tl]

theorem normFields_insertSorted (k : String) (v : JVal) :
    ∀ tl : JFields, normFields (JFields.insertSorted k v tl)
      = JFields.insertSorted k (normalizeForHashing v) (normFields tl)
  | .nil => rfl
  | .cons k' v' tl => by
    by_cases h : strLeB k k' = true
    · simp [JFields.insertSorted, normFields, h]
    · simp [JFields.insertSorted, normFields, h, normFields_insertSorted k v tl]

theorem normFields_keySort : ∀ fs : JFields,
    normFields fs.keySort = (normFields fs).keySort
  | .nil => rfl
  | .cons k v tl => by
    simp [JFields.keySort, normFields, normFields_insertSorted, normFields_keySort tl]

/-- The object case of `normalizeForHashing` in the source's operation order:
sort the keys, skip the receipt-metadata keys, then recurse into the values.
(The definition recurses first; since sorting and filtering only inspect keys,
which recursion preserves, the two orders agree.) -/
theorem normalizeForHashing_jobj_source_order (fs : JFields) :
    normalizeForHashing (.jobj fs) = .jobj (normFields fs.keySort.filterMeta) := by
  show JVal.jobj ((normFields fs).keySort.filterMeta) = _
  rw [normFields_filterMeta, normFields_keySort]

mutual
/-- Two payloads that "differ only in object key order, in leading/trailing
whitespace or letter case of string values, or in the presence of keys named
`received_at`, `created_at`, or `id`, at any nesting depth": object fields
agree (with similar values) after key-sorting and dropping the metadata keys,
array elements agree pointwise, strings agree up to `trim`/`toLowerCase`, and
other primitives agree exactly. -/
inductive SimilarVal : JVal → JVal → Prop
  | nullS : SimilarVal .jnull .jnull
  | nanS : SimilarVal .jnan .jnan
  | boolS (b : Bool) : SimilarVal (.jbool b) (.jbool b)
  | numS (d : JSNum) : SimilarVal (.jnum d) (.jnum d)
  | strS (s t : String) : canonStr s = canonStr t → SimilarVal (.jstr s) (.jstr t)
  | arrS (xs ys : JArr) : SimilarArr xs ys → SimilarVal (.jarr xs) (.jarr ys)
  | objS (fs gs : JFields) :
      SimilarFields fs.keySort.filterMeta gs.keySort.filterMeta →
      SimilarVal (.jobj fs) (.jobj gs)

inductive SimilarArr : JArr → JArr → Prop
  | nil : SimilarArr .nil .nil
  | cons (v w : JVal) (vs ws : JArr) :
      SimilarVal v w → SimilarArr vs ws → SimilarArr (.cons v vs) (.cons w ws)

inductive SimilarFields : JFields → JFields → Prop
  | nil : SimilarFields .nil .nil
  | cons (k : String) (v w : JVal) (fs gs : JFields) :
      SimilarVal v w → SimilarFields fs gs → SimilarFields (.cons k v fs) (.cons k w gs)
end


/-- `normalizeForHashing` maps similar payloads to the same canonical form
(simultaneous induction over the three similarity predicates, by their mutual
recursor). -/
theorem similar_norm (a b : JVal) (h : SimilarVal a b) :
    normalizeForHashing a = normalizeForHashing b :=
  @SimilarVal.rec
    (fun a b _ => normalizeForHashing a = normalizeForHashing b)
    (fun xs ys _ => normArr xs = normArr ys)
    (fun fs gs _ => normFields fs = normFields gs)
    rfl
    rfl
    (fun _ => rfl)
    (fun _ => rfl)
    (fun s t hst => by
      show JVal.jstr (canonStr s) = JVal.jstr (canonStr t)
      rw [hst])
    (fun xs ys _ ih => by
      show JVal.jarr (normArr xs) = JVal.jarr (normArr ys)
      rw [ih])
    (fun fs gs _ ih => by
      show normalizeForHashing (JVal.jobj fs) = normalizeForHashing (JVal.jobj gs)
      have ih' : normFields fs.keySort.filterMeta = normFields gs.keySort.filterMeta := ih
      rw [normalizeForHashing_jobj_source_order, normalizeForHashing_jobj_source_order, ih'])
    rfl
    (fun v w vs ws _ _ ihv ihtl => by
      show JArr.cons (normalizeForHashing v) (normArr vs)
        = JArr.cons (normalizeForHashing w) (normArr ws)
      rw [ihv, ihtl])
    rfl
    (fun k v w fs gs _ _ ihv ihtl => by
      show JFields.cons k (normalizeForHashing v) (normFields fs)
        = JFields.cons k (normalizeForHashing w) (normFields gs)
      rw [ihv, ihtl])
    a b h

/-! ## Branch characterisations of `ingestEvent` -/

/-- The STEP-1 branch: on a duplicate hit, `ingestEvent` returns the
idempotent result and writes only to the processing log. -/
theorem ingestEvent_duplicate (e : JVal) (sf : Bool) (now dbNow : String) (s : DBState)
    (dup : DupInfo) (h : checkDuplicate s (generateEventHash e) = some dup) :
    ingestEvent e sf now dbNow s =
      ({ status := 200, success := true,
         message := "Event already processed (duplicate detected)",
         isDuplicate := true, eventHash := generateEventHash e,
         firstSeenAt := some dup.firstSeenAt, data := dup.data },
       logProcessing (logProcessing s (generateEventHash e) "ingest" "started" none)
         (generateEventHash e) "ingest" "duplicate" (some "Event already processed")) := by
  have h' : checkDuplicate (logProcessing s (generateEventHash e) "ingest" "started" none)
      (generateEventHash e) = some dup := h
  simp only [ingestEvent]
  rw [h']

/-- `checkDuplicate` on a state whose raw table has no row for the hash. -/
theorem checkDuplicate_eq_none (s : DBState) (h : String)
    (hnd : ∀ r ∈ s.rawEvents, (r.event_hash == h) = false) :
    checkDuplicate s h = none := by
  unfold checkDuplicate
  rw [List.find?_eq_none.mpr (by simpa using hnd)]
  rfl

/-- `checkDuplicate` on a hit: the joined row for the first raw row found. -/
theorem checkDuplicate_eq_some (s : DBState) (h : String) (row : RawRow)
    (hrow : s.rawEvents.find? (fun r => r.event_hash == h) = some row) :
    checkDuplicate s h =
      some (match s.normalizedEvents.find? (fun n => n.raw_event_id == row.id) with
            | some n =>
              { rawEventId := row.id, normalizedId := some n.id, status := some n.status,
                firstSeenAt := row.received_at,
                data := some ⟨n.client_id, n.metric, n.amount, n.timestamp⟩ }
            | none =>
              { rawEventId := row.id, normalizedId := none, status := none,
                firstSeenAt := row.received_at, data := none }) := by
  unfold checkDuplicate
  rw [hrow]
  rfl

/-! ## Claim C5 — duplicate requests are idempotent and write nothing -/

/-- **C5**: for every stored state already containing a RawEvent with the
request's fingerprint, `ingestEvent` returns an idempotent success result
(status 200, `isDuplicate`), carrying the original receipt time and the
previously stored canonical data (if any NormalizedEvent joined), and leaves
the `raw_events`, `normalized_events` and `failed_events` tables unchanged. -/
theorem c5_duplicate_idempotent_frame
    (e : JVal) (sf : Bool) (now dbNow : String) (s : DBState) (row : RawRow)
    (hrow : s.rawEvents.find? (fun r => r.event_hash == generateEventHash e) = some row) :
    (ingestEvent e sf now dbNow s).1.status = 200 ∧
    (ingestEvent e sf now dbNow s).1.success = true ∧
    (ingestEvent e sf now dbNow s).1.isDuplicate = true ∧
    (ingestEvent e sf now dbNow s).1.firstSeenAt = some row.received_at ∧
    (ingestEvent e sf now dbNow s).1.data =
      (s.normalizedEvents.find? (fun n => n.raw_event_id == row.id)).map
        (fun n => ⟨n.client_id, n.metric, n.amount, n.timestamp⟩) ∧
    (ingestEvent e sf now dbNow s).2.rawEvents = s.rawEvents ∧
    (ingestEvent e sf now dbNow s).2.normalizedEvents = s.normalizedEvents ∧
    (ingestEvent e sf now dbNow s).2.failedEvents = s.failedEvents := by
  have hcd := checkDuplicate_eq_some s (generateEventHash e) row hrow
  cases hfind : s.normalizedEvents.find? (fun n => n.raw_event_id == row.id) with
  | none =>
    rw [hfind] at hcd
    rw [ingestEvent_duplicate e sf now dbNow s _ hcd]
    simp [logProcessing]
  | some n =>
    rw [hfind] at hcd
    rw [ingestEvent_duplicate e sf now dbNow s _ hcd]
    simp [logProcessing]

/-- A sample event reused by several witnesses. -/
def sampleEvent : JVal :=
  .jobj (.cons "source" (.jstr "client_a")
    (.cons "payload" (.jobj (.cons "metric" (.jstr "revenue")
      (.cons "amount" (.jnum ⟨100, 0⟩)
        (.cons "timestamp" (.jstr "2024-01-02") .nil)))) .nil))

/-- A stored raw row for `sampleEvent`'s fingerprint. -/
def sampleRawRow : RawRow :=
  ⟨1, generateEventHash sampleEvent, stringify sampleEvent, "2024-01-02 08:00:00"⟩

/-- A stored normalized row joined to `sampleRawRow`. -/
def sampleNormRow : NormRow :=
  ⟨1, 1, "client_a", "revenue", ⟨100, 0⟩, "2024-01-02T00:00:00.000Z", "processed"⟩

/-- A state where `sampleEvent` was already ingested successfully. -/
def dupStateC5 : DBState := ⟨[sampleRawRow], [sampleNormRow], [], []⟩

theorem c5_duplicate_idempotent_frame_witness :
    dupStateC5.rawEvents.find?
      (fun r => r.event_hash == generateEventHash sampleEvent) = some sampleRawRow ∧
    ((ingestEvent sampleEvent false "N" "D" dupStateC5).1.status = 200 ∧
     (ingestEvent sampleEvent false "N" "D" dupStateC5).1.success = true ∧
     (ingestEvent sampleEvent false "N" "D" dupStateC5).1.isDuplicate = true ∧
     (ingestEvent sampleEvent false "N" "D" dupStateC5).1.firstSeenAt
       = some sampleRawRow.received_at ∧
     (ingestEvent sampleEvent false "N" "D" dupStateC5).1.data =
       (dupStateC5.normalizedEvents.find? (fun n => n.raw_event_id == sampleRawRow.id)).map
         (fun n => ⟨n.client_id, n.metric, n.amount, n.timestamp⟩) ∧
     (ingestEvent sampleEvent false "N" "D" dupStateC5).2.rawEvents = dupStateC5.rawEvents ∧
     (ingestEvent sampleEvent false "N" "D" dupStateC5).2.normalizedEvents
       = dupStateC5.normalizedEvents ∧
     (ingestEvent sampleEvent false "N" "D" dupStateC5).2.failedEvents
       = dupStateC5.failedEvents) :=
  ⟨by decide, c5_duplicate_idempotent_frame sampleEvent false "N" "D" dupStateC5
    sampleRawRow (by decide)⟩

/-! ## Claim C10 — raw row without normalized row short-circuits with `data = null` -/

/-- **C10**: when a RawEvent exists for the fingerprint but no NormalizedEvent
references it (e.g. after a validation failure or after a persistence
failure's secondary raw-store), `ingestEvent` returns the duplicate idempotent
success with `data = null` and never reprocesses the payload toward a
NormalizedEvent. -/
theorem c10_partial_state_duplicate_null_data
    (e : JVal) (sf : Bool) (now dbNow : String) (s : DBState) (row : RawRow)
    (hrow : s.rawEvents.find? (fun r => r.event_hash == generateEventHash e) = some row)
    (hnone : ∀ n ∈ s.normalizedEvents, (n.raw_event_id == row.id) = false) :
    (ingestEvent e sf now dbNow s).1.status = 200 ∧
    (ingestEvent e sf now dbNow s).1.success = true ∧
    (ingestEvent e sf now dbNow s).1.isDuplicate = true ∧
    (ingestEvent e sf now dbNow s).1.data = none ∧
    (ingestEvent e sf now dbNow s).2.normalizedEvents = s.normalizedEvents := by
  have hfind : s.normalizedEvents.find? (fun n => n.raw_event_id == row.id) = none :=
    List.find?_eq_none.mpr (by simpa using hnone)
  have hcd := checkDuplicate_eq_some s (generateEventHash e) row hrow
  rw [hfind] at hcd
  rw [ingestEvent_duplicate e sf now dbNow s _ hcd]
  simp [logProcessing]

/-- A state holding only a raw row for `sampleEvent` (as after a persistence
failure's secondary raw-store). -/
def rawOnlyStateC10 : DBState := ⟨[sampleRawRow], [], [], []⟩

theorem c10_partial_state_duplicate_null_data_witness :
    rawOnlyStateC10.rawEvents.find?
      (fun r => r.event_hash == generateEventHash sampleEvent) = some sampleRawRow ∧
    (∀ n ∈ rawOnlyStateC10.normalizedEvents, (n.raw_event_id == sampleRawRow.id) = false) ∧
    ((ingestEvent sampleEvent false "N" "D" rawOnlyStateC10).1.status = 200 ∧
     (ingestEvent sampleEvent false "N" "D" rawOnlyStateC10).1.success = true ∧
     (ingestEvent sampleEvent false "N" "D" rawOnlyStateC10).1.isDuplicate = true ∧
     (ingestEvent sampleEvent false "N" "D" rawOnlyStateC10).1.data = none ∧
     (ingestEvent sampleEvent false "N" "D" rawOnlyStateC10).2.normalizedEvents
       = rawOnlyStateC10.normalizedEvents) :=
  ⟨by decide, by decide,
   c10_partial_state_duplicate_null_data sampleEvent false "N" "D" rawOnlyStateC10
     sampleRawRow (by decide) (by decide)⟩

/-! ## Normalizer facts -/

/-- When the amount field is absent under every alias, `normalize` records the
missing-amount error and fails. -/
theorem Normalizer.normalize_missing_amount (e : JVal) (now : String)
    (hnull : jsIsNull e = false)
    (hmiss : extractField (payloadOf e) "amount" = none) :
    "Missing required field: amount (or equivalent)" ∈ (Normalizer.normalize e now).errors ∧
    (Normalizer.normalize e now).success = false ∧
    (Normalizer.normalize e now).data = none := by
  simp only [Normalizer.normalize, hnull, hmiss]
  simp only [Bool.false_eq_true, if_false]
  split
  · next hempty =>
    exfalso
    rw [List.isEmpty_iff] at hempty
    simp [List.append_eq_nil] at hempty
  · next hempty =>
    simp [List.mem_append]

/-- The STEP-2 failure branch: on a fresh fingerprint whose normalization
fails, `ingestEvent` stores the raw payload standalone, records a
`validation_error` FailedEvent referencing it, and returns the 400 result
carrying the error and warning lists. -/
theorem ingestEvent_validation (e : JVal) (sf : Bool) (now dbNow : String) (s : DBState)
    (hnd : ∀ r ∈ s.rawEvents, (r.event_hash == generateEventHash e) = false)
    (hns : (Normalizer.normalize e now).success = false) :
    (ingestEvent e sf now dbNow s).1 =
      { status := 400, success := false, message := "Event validation failed",
        errors := (Normalizer.normalize e now).errors,
        warnings := (Normalizer.normalize e now).warnings,
        eventHash := generateEventHash e } ∧
    (ingestEvent e sf now dbNow s).2.rawEvents =
      s.rawEvents ++ [⟨s.rawEvents.length + 1, generateEventHash e, stringify e, dbNow⟩] ∧
    (ingestEvent e sf now dbNow s).2.normalizedEvents = s.normalizedEvents ∧
    (ingestEvent e sf now dbNow s).2.failedEvents =
      s.failedEvents ++ [⟨s.failedEvents.length + 1, some (s.rawEvents.length + 1),
        generateEventHash e, stringify e,
        String.intercalate "; " (Normalizer.normalize e now).errors,
        "validation_error", dbNow⟩] := by
  have hcd : checkDuplicate (logProcessing s (generateEventHash e) "ingest" "started" none)
      (generateEventHash e) = none := checkDuplicate_eq_none s _ hnd
  have hany : (s.rawEvents.any (fun r => r.event_hash == generateEventHash e)) = false := by
    rw [List.any_eq_false]
    simpa using hnd
  simp only [ingestEvent]
  rw [hcd]
  simp only [hns, Bool.not_false, if_true]
  simp [storeRawEvent, hany, storeFailedEvent, logProcessing]

/-! ## Claim C6 — missing amount is a recorded validation failure -/

/-- **C6**: for every non-duplicate, non-`null` payload whose amount field is
missing under all its aliases, `ingestEvent` returns a 400 validation result
whose error list names amount as missing, together with the warning list;
no NormalizedEvent row is created; the raw payload is stored standalone; and a
FailedEvent of the validation category (`error_type = "validation_error"`)
referencing that raw row is stored. -/
theorem c6_missing_amount_rejected (e : JVal) (sf : Bool) (now dbNow : String) (s : DBState)
    (hnull : jsIsNull e = false)
    (hnd : ∀ r ∈ s.rawEvents, (r.event_hash == generateEventHash e) = false)
    (hmiss : extractField (payloadOf e) "amount" = none) :
    (ingestEvent e sf now dbNow s).1.status = 400 ∧
    (ingestEvent e sf now dbNow s).1.success = false ∧
    "Missing required field: amount (or equivalent)" ∈ (ingestEvent e sf now dbNow s).1.errors ∧
    (ingestEvent e sf now dbNow s).1.warnings = (Normalizer.normalize e now).warnings ∧
    (ingestEvent e sf now dbNow s).2.normalizedEvents = s.normalizedEvents ∧
    (ingestEvent e sf now dbNow s).2.rawEvents =
      s.rawEvents ++ [⟨s.rawEvents.length + 1, generateEventHash e, stringify e, dbNow⟩] ∧
    (ingestEvent e sf now dbNow s).2.failedEvents =
      s.failedEvents ++ [⟨s.failedEvents.length + 1, some (s.rawEvents.length + 1),
        generateEventHash e, stringify e,
        String.intercalate "; " (Normalizer.normalize e now).errors,
        "validation_error", dbNow⟩] := by
  obtain ⟨hmem, hns, -⟩ := Normalizer.normalize_missing_amount e now hnull hmiss
  obtain ⟨hres, hraw, hnorm, hfail⟩ := ingestEvent_validation e sf now dbNow s hnd hns
  refine ⟨?_, ?_, ?_, ?_, hnorm, hraw, hfail⟩
  · rw [hres]
  · rw [hres]
  · rw [hres]
    exact hmem
  · rw [hres]

/-- The sample event with the amount field absent under every alias. -/
def missingAmountEvent : JVal :=
  .jobj (.cons "source" (.jstr "client_a")
    (.cons "payload" (.jobj (.cons "metric" (.jstr "revenue")
      (.cons "timestamp" (.jstr "2024-01-02") .nil))) .nil))

theorem c6_missing_amount_rejected_witness :
    jsIsNull missingAmountEvent = false ∧
    (∀ r ∈ emptyDB.rawEvents,
      (r.event_hash == generateEventHash missingAmountEvent) = false) ∧
    extractField (payloadOf missingAmountEvent) "amount" = none ∧
    ((ingestEvent missingAmountEvent false "N" "D" emptyDB).1.status = 400 ∧
     (ingestEvent missingAmountEvent false "N" "D" emptyDB).1.success = false ∧
     "Missing required field: amount (or equivalent)"
       ∈ (ingestEvent missingAmountEvent false "N" "D" emptyDB).1.errors ∧
     (ingestEvent missingAmountEvent false "N" "D" emptyDB).1.warnings
       = (Normalizer.normalize missingAmountEvent "N").warnings ∧
     (ingestEvent missingAmountEvent false "N" "D" emptyDB).2.normalizedEvents
       = emptyDB.normalizedEvents ∧
     (ingestEvent missingAmountEvent false "N" "D" emptyDB).2.rawEvents =
       emptyDB.rawEvents ++ [⟨emptyDB.rawEvents.length + 1,
         generateEventHash missingAmountEvent, stringify missingAmountEvent, "D"⟩] ∧
     (ingestEvent missingAmountEvent false "N" "D" emptyDB).2.failedEvents =
       emptyDB.failedEvents ++ [⟨emptyDB.failedEvents.length + 1,
         some (emptyDB.rawEvents.length + 1),
         generateEventHash missingAmountEvent, stringify missingAmountEvent,
         String.intercalate "; " (Normalizer.normalize missingAmountEvent "N").errors,
         "validation_error", "D"⟩]) :=
  ⟨rfl, by decide, rfl,
   c6_missing_amount_rejected missingAmountEvent false "N" "D" emptyDB
     rfl (by decide) rfl⟩

/-- When the amount field is present but unparseable, `normalize` records the
invalid-amount error (with the value rendered by string conversion) and fails. -/
theorem Normalizer.normalize_invalid_amount (e : JVal) (now : String) (v : JVal)
    (hnull : jsIsNull e = false)
    (hv : extractField (payloadOf e) "amount" = some v)
    (hp : parseNumber v = none) :
    ("Invalid amount value: " ++ jsToString v ++ " (cannot be converted to number)")
      ∈ (Normalizer.normalize e now).errors ∧
    (Normalizer.normalize e now).success = false := by
  simp only [Normalizer.normalize, hnull, hv, hp]
  simp only [Bool.false_eq_true, if_false]
  split
  · next hempty =>
    exfalso
    rw [List.isEmpty_iff] at hempty
    simp [List.append_eq_nil] at hempty
  · next => simp [List.mem_append]

/-! ## Claim C7 — amount parsing and coercion -/

/-- The sample event with amount `"1,200.50"`. -/
def commaAmountEvent : JVal :=
  .jobj (.cons "source" (.jstr "client_a")
    (.cons "payload" (.jobj (.cons "metric" (.jstr "revenue")
      (.cons "amount" (.jstr "1,200.50")
        (.cons "timestamp" (.jstr "2024-01-02") .nil)))) .nil))

/-- **C7**: `normalize` accepts an amount given as a number or as a string with
thousands separators and a currency symbol: the string `"1,200.50"` parses to
the number 1200.5 (the decimal `12005/10`) with a coercion warning; a number
passes through; an unparseable or missing amount, or a `NaN`, yields an
error and normalization fails. -/
theorem c7_amount_coercion :
    parseNumber (.jstr "1,200.50") = some ⟨12005, 1⟩ ∧
    JSNum.toRat ⟨12005, 1⟩ = 1200.5 ∧
    (∀ d : JSNum, parseNumber (.jnum d) = some d) ∧
    parseNumber .jnan = none ∧
    (∀ now : String,
      (Normalizer.normalize commaAmountEvent now).success = true ∧
      ((Normalizer.normalize commaAmountEvent now).data.map Canonical.amount)
        = some ⟨12005, 1⟩ ∧
      "Amount was provided as string \"1,200.50\", converted to 1200.5"
        ∈ (Normalizer.normalize commaAmountEvent now).warnings) ∧
    (∀ (e : JVal) (now : String) (v : JVal), jsIsNull e = false →
      extractField (payloadOf e) "amount" = some v → parseNumber v = none →
      ("Invalid amount value: " ++ jsToString v ++ " (cannot be converted to number)")
        ∈ (Normalizer.normalize e now).errors ∧
      (Normalizer.normalize e now).success = false) ∧
    (∀ (e : JVal) (now : String), jsIsNull e = false →
      extractField (payloadOf e) "amount" = none →
      "Missing required field: amount (or equivalent)" ∈ (Normalizer.normalize e now).errors ∧
      (Normalizer.normalize e now).success = false) := by
  refine ⟨rfl, ?_, fun _ => rfl, rfl, ?_, ?_, ?_⟩
  · show (12005 : ℚ) / 10 ^ 1 = 1200.5
    norm_num
  · intro now
    refine ⟨rfl, rfl, ?_⟩
    have hw : (Normalizer.normalize commaAmountEvent now).warnings =
        ["Amount was provided as string \"1,200.50\", converted to 1200.5",
         "Timestamp normalized from \"2024-01-02\" to \"2024-01-02T00:00:00.000Z\""] := rfl
    rw [hw]
    decide
  · intro e now v hnull hv hp
    exact Normalizer.normalize_invalid_amount e now v hnull hv hp
  · intro e now hnull hmiss
    obtain ⟨hmem, hns, -⟩ := Normalizer.normalize_missing_amount e now hnull hmiss
    exact ⟨hmem, hns⟩

/-- The sample event with the unparseable amount `"abc"`. -/
def abcAmountEvent : JVal :=
  .jobj (.cons "source" (.jstr "client_a")
    (.cons "payload" (.jobj (.cons "metric" (.jstr "revenue")
      (.cons "amount" (.jstr "abc")
        (.cons "timestamp" (.jstr "2024-01-02") .nil)))) .nil))

theorem c7_amount_coercion_witness :
    jsIsNull abcAmountEvent = false ∧
    extractField (payloadOf abcAmountEvent) "amount" = some (.jstr "abc") ∧
    parseNumber (.jstr "abc") = none ∧
    ("Invalid amount value: abc (cannot be converted to number)"
       ∈ (Normalizer.normalize abcAmountEvent "N").errors ∧
     (Normalizer.normalize abcAmountEvent "N").success = false) :=
  ⟨rfl, rfl, rfl,
   c7_amount_coercion.2.2.2.2.2.1 abcAmountEvent "N" (.jstr "abc") rfl rfl rfl⟩

/-! ## Claim C8 — timestamp normalization -/

/-- The sample event with timestamp `"2024/01/01"`. -/
def slashDateEvent : JVal :=
  .jobj (.cons "source" (.jstr "client_a")
    (.cons "payload" (.jobj (.cons "metric" (.jstr "revenue")
      (.cons "amount" (.jnum ⟨100, 0⟩)
        (.cons "timestamp" (.jstr "2024/01/01") .nil)))) .nil))

/-- The sample event with timestamp `"not-a-date"`. -/
def badDateEvent : JVal :=
  .jobj (.cons "source" (.jstr "client_a")
    (.cons "payload" (.jobj (.cons "metric" (.jstr "revenue")
      (.cons "amount" (.jnum ⟨100, 0⟩)
        (.cons "timestamp" (.jstr "not-a-date") .nil)))) .nil))

/-- **C8**: `normalize` maps the timestamp `"2024/01/01"` to the UTC ISO-8601
midnight `"2024-01-01T00:00:00.000Z"` with a rewrite warning; a wholly
unparseable timestamp (`"not-a-date"`) records an error *and* substitutes the
current instant with a warning, so both lists are populated and normalization
fails. -/
theorem c8_timestamp_normalization :
    (∀ now : String,
      (Normalizer.normalize slashDateEvent now).success = true ∧
      ((Normalizer.normalize slashDateEvent now).data.map Canonical.timestamp)
        = some "2024-01-01T00:00:00.000Z" ∧
      "Timestamp normalized from \"2024/01/01\" to \"2024-01-01T00:00:00.000Z\""
        ∈ (Normalizer.normalize slashDateEvent now).warnings) ∧
    (∀ now : String,
      (Normalizer.normalize badDateEvent now).success = false ∧
      (Normalizer.normalize badDateEvent now).data = none ∧
      "Invalid timestamp format: not-a-date"
        ∈ (Normalizer.normalize badDateEvent now).errors ∧
      "Using current time due to invalid timestamp"
        ∈ (Normalizer.normalize badDateEvent now).warnings ∧
      (Normalizer.normalize badDateEvent now).errors ≠ [] ∧
      (Normalizer.normalize badDateEvent now).warnings ≠ []) := by
  constructor
  · intro now
    refine ⟨rfl, rfl, ?_⟩
    have hw : (Normalizer.normalize slashDateEvent now).warnings =
        ["Timestamp normalized from \"2024/01/01\" to \"2024-01-01T00:00:00.000Z\""] := rfl
    rw [hw]
    decide
  · intro now
    have he : (Normalizer.normalize badDateEvent now).errors =
        ["Invalid timestamp format: not-a-date"] := rfl
    have hw : (Normalizer.normalize badDateEvent now).warnings =
        ["Using current time due to invalid timestamp"] := rfl
    refine ⟨rfl, rfl, ?_, ?_, ?_, ?_⟩
    · rw [he]; decide
    · rw [hw]; decide
    · rw [he]; decide
    · rw [hw]; decide

/-- A successful normalization carries a canonical record. -/
theorem Normalizer.normalize_success_data (e : JVal) (now : String)
    (h : (Normalizer.normalize e now).success = true) :
    ∃ c, (Normalizer.normalize e now).data = some c := by
  simp only [Normalizer.normalize] at h ⊢
  cases hnull : jsIsNull e with
  | true => simp [hnull] at h
  | false =>
    simp only [hnull, Bool.false_eq_true, if_false] at h ⊢
    split at h
    · next hempty =>
      rw [if_pos hempty]
      exact ⟨_, rfl⟩
    · next hempty => simp at h

/-- The canonical record's amount is exactly the parsed amount of the
extracted amount field. -/
theorem Normalizer.normalize_data_amount (e : JVal) (now : String) (c : Canonical)
    (h : (Normalizer.normalize e now).data = some c) :
    (extractField (payloadOf e) "amount").bind parseNumber = some c.amount := by
  simp only [Normalizer.normalize] at h
  cases hnull : jsIsNull e with
  | true => simp [hnull] at h
  | false =>
    simp only [hnull, Bool.false_eq_true, if_false] at h
    cases hamt : extractField (payloadOf e) "amount" with
    | none =>
      exfalso
      simp only [hamt] at h
      split at h
      · next hempty =>
        rw [List.isEmpty_iff] at hempty
        simp [List.append_eq_nil] at hempty
      · next => simp at h
    | some v =>
      cases hp : parseNumber v with
      | none =>
        exfalso
        simp only [hamt, hp] at h
        split at h
        · next hempty =>
          rw [List.isEmpty_iff] at hempty
          simp [List.append_eq_nil] at hempty
        · next => simp at h
      | some d =>
        simp only [hamt, hp, Option.getD_some] at h
        split at h
        · next =>
          injection h with h'
          subst h'
          show parseNumber v = some d
          exact hp
        · next => simp at h

/-- `storeRawEvent` never touches the normalized table. -/
theorem storeRawEvent_normalized (s : DBState) (h : String) (r : JVal) (d : String) :
    (storeRawEvent s h r d).2.normalizedEvents = s.normalizedEvents := by
  unfold storeRawEvent
  split <;> rfl

/-- Each `ingestEvent` call either leaves the normalized table unchanged or
commits exactly one row, whose fields are the successful normalization's
canonical record. -/
theorem ingestEvent_normalizedEvents (e : JVal) (sf : Bool) (now dbNow : String) (s : DBState) :
    (ingestEvent e sf now dbNow s).2.normalizedEvents = s.normalizedEvents ∨
    ∃ c, (Normalizer.normalize e now).data = some c ∧
      (ingestEvent e sf now dbNow s).2.normalizedEvents =
        s.normalizedEvents ++
          [⟨s.normalizedEvents.length + 1, s.rawEvents.length + 1, c.client_id, c.metric,
            c.amount, c.timestamp, "processed"⟩] := by
  simp only [ingestEvent]
  cases hcd : checkDuplicate (logProcessing s (generateEventHash e) "ingest" "started" none)
      (generateEventHash e) with
  | some dup => exact Or.inl rfl
  | none =>
    by_cases hns : (Normalizer.normalize e now).success = true
    · rw [hns]
      simp only [Bool.not_true, Bool.false_eq_true, if_false]
      obtain ⟨c0, hc0⟩ := Normalizer.normalize_success_data e now hns
      rw [hc0]
      simp only [Option.getD_some]
      rcases hst : storeRawEvent (logProcessing s (generateEventHash e) "ingest" "started" none)
          (generateEventHash e) e dbNow with ⟨rid, s2⟩
      simp only [DatabaseManager.transaction, processTransaction, hst]
      cases rid with
      | none =>
        left
        rcases hst2 : storeRawEvent
            (logProcessing (logProcessing s (generateEventHash e) "ingest" "started" none)
              (generateEventHash e) "persist" "failed"
              (some "Failed to store raw event (possible race condition)"))
            (generateEventHash e) e dbNow with ⟨rid2, s4⟩
        have h4 : s4.normalizedEvents = s.normalizedEvents := by
          have hh := storeRawEvent_normalized
            (logProcessing (logProcessing s (generateEventHash e) "ingest" "started" none)
              (generateEventHash e) "persist" "failed"
              (some "Failed to store raw event (possible race condition)"))
            (generateEventHash e) e dbNow
          rw [hst2] at hh
          exact hh
        simp only [hst2]
        cases rid2 with
        | none => exact h4
        | some rid2 => exact h4
      | some rid =>
        cases sf with
        | true =>
          left
          rcases hst2 : storeRawEvent
              (logProcessing (logProcessing s (generateEventHash e) "ingest" "started" none)
                (generateEventHash e) "persist" "failed" (some "Simulated database failure"))
              (generateEventHash e) e dbNow with ⟨rid2, s4⟩
          have h4 : s4.normalizedEvents = s.normalizedEvents := by
            have hh := storeRawEvent_normalized
              (logProcessing (logProcessing s (generateEventHash e) "ingest" "started" none)
                (generateEventHash e) "persist" "failed" (some "Simulated database failure"))
              (generateEventHash e) e dbNow
            rw [hst2] at hh
            exact hh
          simp only [if_true]
          simp only [hst2]
          cases rid2 with
          | none => exact h4
          | some rid2 => exact h4
        | false =>
          right
          refine ⟨c0, rfl, ?_⟩
          unfold storeRawEvent at hst
          split at hst
          · exact absurd (congrArg Prod.fst hst) (by simp)
          · injection hst with h1 h2
            injection h1 with h1
            subst h1
            subst h2
            rfl
    · have hns' : (Normalizer.normalize e now).success = false := by
        cases hx : (Normalizer.normalize e now).success
        · rfl
        · exact absurd hx hns
      rw [hns']
      simp only [Bool.not_false, if_true]
      left
      rcases hst : storeRawEvent (logProcessing s (generateEventHash e) "ingest" "started" none)
          (generateEventHash e) e dbNow with ⟨rid, s2⟩
      have h2 : s2.normalizedEvents = s.normalizedEvents := by
        have hh := storeRawEvent_normalized
          (logProcessing s (generateEventHash e) "ingest" "started" none)
          (generateEventHash e) e dbNow
        rw [hst] at hh
        exact hh
      simp only [hst]
      cases rid with
      | none => exact h2
      | some rid => exact h2

/-- Every normalized row after an `ingestEvent` call was already stored or
carries the parsed amount of this call's payload. -/
theorem ingestEvent_normalized_mem (e : JVal) (sf : Bool) (now dbNow : String) (s : DBState) :
    ∀ n ∈ (ingestEvent e sf now dbNow s).2.normalizedEvents,
      n ∈ s.normalizedEvents ∨
      ∃ c, (Normalizer.normalize e now).data = some c ∧ n.amount = c.amount := by
  intro n hn
  rcases ingestEvent_normalizedEvents e sf now dbNow s with heq | ⟨c, hc, heq⟩
  · rw [heq] at hn
    exact Or.inl hn
  · rw [heq] at hn
    rcases List.mem_append.mp hn with h | h
    · exact Or.inl h
    · rcases List.mem_singleton.mp h with rfl
      exact Or.inr ⟨c, hc, rfl⟩

/-! ## Claim C9 — amounts of stored NormalizedEvents (corrected) -/

/-- The sample event with the negative amount `-5`. -/
def negAmountEvent : JVal :=
  .jobj (.cons "source" (.jstr "client_a")
    (.cons "payload" (.jobj (.cons "metric" (.jstr "revenue")
      (.cons "amount" (.jnum ⟨-5, 0⟩)
        (.cons "timestamp" (.jstr "2024-01-02") .nil)))) .nil))

/-- **C9 counterexample**: the pipeline accepts and commits a NormalizedEvent
row with a negative amount — ingesting an event whose amount is `-5` from the
empty database stores amount `-5 < 0`, refuting the claimed non-negativity
invariant. -/
theorem c9_nonnegative_amount_counterexample :
    (ingestEvent negAmountEvent false "N" "D" emptyDB).2.normalizedEvents
      = [⟨1, 1, "client_a", "revenue", ⟨-5, 0⟩, "2024-01-02T00:00:00.000Z", "processed"⟩] ∧
    JSNum.toRat ⟨-5, 0⟩ < 0 := by
  constructor
  · rfl
  · show ((-5 : ℤ) : ℚ) / 10 ^ 0 < 0
    norm_num

/-- **C9 (amended)**: every NormalizedEvent row created by `ingestEvent`
carries exactly the normalizer's parsed amount; non-negativity is *not*
enforced, so the invariant "all stored amounts are ≥ 0" is preserved by an
ingestion call precisely under the assumption that the payload's parsed
amount (when one exists) is non-negative. -/
theorem c9_nonnegative_amount_preserved (e : JVal) (sf : Bool) (now dbNow : String)
    (s : DBState)
    (hstate : ∀ n ∈ s.normalizedEvents, 0 ≤ n.amount.toRat)
    (hinput : ∀ (v : JVal) (d : JSNum), extractField (payloadOf e) "amount" = some v →
      parseNumber v = some d → 0 ≤ d.toRat) :
    ∀ n ∈ (ingestEvent e sf now dbNow s).2.normalizedEvents, 0 ≤ n.amount.toRat := by
  intro n hn
  rcases ingestEvent_normalized_mem e sf now dbNow s n hn with hmem | ⟨c, hc, ha⟩
  · exact hstate n hmem
  · have hbind := Normalizer.normalize_data_amount e now c hc
    cases hamt : extractField (payloadOf e) "amount" with
    | none =>
      rw [hamt] at hbind
      exact absurd hbind (by simp)
    | some v =>
      rw [hamt] at hbind
      have hp : parseNumber v = some c.amount := hbind
      rw [ha]
      exact hinput v c.amount hamt hp

theorem c9_nonnegative_amount_preserved_witness :
    (∀ n ∈ emptyDB.normalizedEvents, 0 ≤ n.amount.toRat) ∧
    (∀ (v : JVal) (d : JSNum), extractField (payloadOf sampleEvent) "amount" = some v →
      parseNumber v = some d → 0 ≤ d.toRat) ∧
    (∀ n ∈ (ingestEvent sampleEvent false "N" "D" emptyDB).2.normalizedEvents,
      0 ≤ n.amount.toRat) := by
  have hstate : ∀ n ∈ emptyDB.normalizedEvents, 0 ≤ n.amount.toRat := by
    intro n hn
    exact absurd hn (List.not_mem_nil n)
  have hinput : ∀ (v : JVal) (d : JSNum),
      extractField (payloadOf sampleEvent) "amount" = some v →
      parseNumber v = some d → 0 ≤ d.toRat := by
    intro v d hv hp
    have h0 : extractField (payloadOf sampleEvent) "amount" = some (.jnum ⟨100, 0⟩) := rfl
    rw [h0] at hv
    injection hv with hv
    subst hv
    injection hp with hp
    subst hp
    show (0 : ℚ) ≤ ((100 : ℤ) : ℚ) / 10 ^ 0
    norm_num
  exact ⟨hstate, hinput,
    c9_nonnegative_amount_preserved sampleEvent false "N" "D" emptyDB hstate hinput⟩

/-! ## Claim C1 — retry after an injected persistence failure (code bug)

The spec (and the source's own comment "On retry, it will be processed again"
and README walkthrough "uncheck Simulate Failure and submit the same event →
successful processing (no duplicate)") require the fingerprint to be unclaimed
after the rolled-back failure.  In the code, the *secondary* failure-recording
step re-inserts the raw row outside the transaction, so the fingerprint is
claimed: the byte-identical retry hits the duplicate check, returns the
idempotent 200 result with `data = null`, and no NormalizedEvent is ever
created. -/

/-- **C1 (refuted, code bug)**: after `ingestEvent` with the injected-fault
flag returns the retryable 500 result, a `raw_events` row for the fingerprint
exists (written by the secondary failure-recording), and the byte-identical
resubmission without the flag is answered as a duplicate (status 200,
`data = null`) with zero NormalizedEvents ever stored — the retry does *not*
proceed past the duplicate check and does *not* succeed. -/
theorem c1_injected_fault_blocks_retry (now1 dbNow1 now2 dbNow2 : String) :
    (ingestEvent sampleEvent true now1 dbNow1 emptyDB).1.status = 500 ∧
    (ingestEvent sampleEvent true now1 dbNow1 emptyDB).1.retryable = true ∧
    ((ingestEvent sampleEvent true now1 dbNow1 emptyDB).2.rawEvents.map RawRow.event_hash)
      = [generateEventHash sampleEvent] ∧
    (ingestEvent sampleEvent false now2 dbNow2
      (ingestEvent sampleEvent true now1 dbNow1 emptyDB).2).1.status = 200 ∧
    (ingestEvent sampleEvent false now2 dbNow2
      (ingestEvent sampleEvent true now1 dbNow1 emptyDB).2).1.isDuplicate = true ∧
    (ingestEvent sampleEvent false now2 dbNow2
      (ingestEvent sampleEvent true now1 dbNow1 emptyDB).2).1.data = none ∧
    (ingestEvent sampleEvent false now2 dbNow2
      (ingestEvent sampleEvent true now1 dbNow1 emptyDB).2).2.normalizedEvents = [] :=
  ⟨rfl, rfl, rfl, rfl, rfl, rfl, rfl⟩

/-! ## Claim C2 — the transactional persist unit rolls back completely -/

/-- **C2**: for every failure raised inside the transactional persist unit
(the raw-event insert followed by the normalized-event insert) — including the
synthetic injected fault, which always makes the unit fail — the unit leaves
all stored tables exactly as they were before it was invoked: no write
performed inside the failed unit is visible afterwards. -/
theorem c2_transaction_rollback (eventHash : String) (raw : JVal) (c : Canonical)
    (sf : Bool) (dbNow : String) (s : DBState) :
    (∀ msg : String,
      (DatabaseManager.transaction (processTransaction eventHash raw c sf dbNow) s).1
        = Except.error msg →
      (DatabaseManager.transaction (processTransaction eventHash raw c sf dbNow) s).2.rawEvents
        = s.rawEvents ∧
      (DatabaseManager.transaction
        (processTransaction eventHash raw c sf dbNow) s).2.normalizedEvents
        = s.normalizedEvents ∧
      (DatabaseManager.transaction (processTransaction eventHash raw c sf dbNow) s).2.failedEvents
        = s.failedEvents ∧
      (DatabaseManager.transaction
        (processTransaction eventHash raw c sf dbNow) s).2.processingLog
        = s.processingLog) ∧
    (sf = true →
      ∃ msg : String,
        (DatabaseManager.transaction (processTransaction eventHash raw c sf dbNow) s).1
          = Except.error msg) := by
  constructor
  · intro msg h
    cases hcb : processTransaction eventHash raw c sf dbNow s with
    | ok p =>
      rw [DatabaseManager.transaction, hcb] at h
      exact absurd h (by simp)
    | error err =>
      rw [DatabaseManager.transaction, hcb]
      exact ⟨rfl, rfl, rfl, rfl⟩
  · intro hsf
    subst hsf
    rcases hst : storeRawEvent s eventHash raw dbNow with ⟨rid, s1⟩
    cases rid with
    | none =>
      refine ⟨"Failed to store raw event (possible race condition)", ?_⟩
      rw [DatabaseManager.transaction]
      rw [show processTransaction eventHash raw c true dbNow s
            = Except.error "Failed to store raw event (possible race condition)" by
        rw [processTransaction, hst]]
    | some rid =>
      refine ⟨"Simulated database failure", ?_⟩
      rw [DatabaseManager.transaction]
      rw [show processTransaction eventHash raw c true dbNow s
            = Except.error "Simulated database failure" by
        rw [processTransaction, hst]
        rfl]

/-- A canonical record used by witnesses. -/
def sampleCanonical : Canonical :=
  ⟨"client_a", "revenue", ⟨100, 0⟩, "2024-01-02T00:00:00.000Z"⟩

theorem c2_transaction_rollback_witness :
    ((DatabaseManager.transaction
        (processTransaction "h" sampleEvent sampleCanonical true "D") emptyDB).1
      = Except.error "Simulated database failure") ∧
    ((DatabaseManager.transaction
        (processTransaction "h" sampleEvent sampleCanonical true "D") emptyDB).2.rawEvents
        = emptyDB.rawEvents ∧
     (DatabaseManager.transaction
        (processTransaction "h" sampleEvent sampleCanonical true "D") emptyDB).2.normalizedEvents
        = emptyDB.normalizedEvents ∧
     (DatabaseManager.transaction
        (processTransaction "h" sampleEvent sampleCanonical true "D") emptyDB).2.failedEvents
        = emptyDB.failedEvents ∧
     (DatabaseManager.transaction
        (processTransaction "h" sampleEvent sampleCanonical true "D") emptyDB).2.processingLog
        = emptyDB.processingLog) ∧
    (∃ msg : String,
      (DatabaseManager.transaction
        (processTransaction "h" sampleEvent sampleCanonical true "D") emptyDB).1
        = Except.error msg) :=
  ⟨rfl,
   (c2_transaction_rollback "h" sampleEvent sampleCanonical true "D" emptyDB).1
     "Simulated database failure" rfl,
   (c2_transaction_rollback "h" sampleEvent sampleCanonical true "D" emptyDB).2 rfl⟩

/-! ## Claim C3 — fingerprint invariance under key order, string surface form
and receipt-metadata keys -/

/-- **C3**: payloads that differ only in object key order, in leading/trailing
whitespace or letter case of string values, or in the presence of keys named
`received_at`, `created_at`, or `id` at any nesting depth (the `SimilarVal`
relation), receive identical fingerprints from `generateEventHash`. -/
theorem c3_semantic_hash_invariance (e1 e2 : JVal) (h : SimilarVal e1 e2) :
    generateEventHash e1 = generateEventHash e2 :=
  congrArg stringify (similar_norm e1 e2 h)

/-- A payload exercising all three kinds of differences at once. -/
def hashPairLeft : JVal :=
  .jobj (.cons "zeta" (.jstr "  Hello ")
    (.cons "alpha" (.jobj (.cons "id" (.jnum ⟨7, 0⟩)
      (.cons "x" (.jarr (.cons (.jstr " A ") .nil)) .nil)))
    (.cons "num" (.jnum ⟨3, 0⟩) .nil)))

/-- `hashPairLeft` with reordered keys, different string surface form, the
`id` key removed and a `created_at` key added. -/
def hashPairRight : JVal :=
  .jobj (.cons "num" (.jnum ⟨3, 0⟩)
    (.cons "alpha" (.jobj (.cons "x" (.jarr (.cons (.jstr "a") .nil))
      (.cons "created_at" (.jstr "t") .nil)))
    (.cons "zeta" (.jstr "hello") .nil)))

theorem c3_semantic_hash_invariance_witness :
    SimilarVal hashPairLeft hashPairRight ∧
    generateEventHash hashPairLeft = generateEventHash hashPairRight := by
  have h : SimilarVal hashPairLeft hashPairRight := by
    apply SimilarVal.objS
    show SimilarFields
      (.cons "alpha" (.jobj (.cons "id" (.jnum ⟨7, 0⟩)
        (.cons "x" (.jarr (.cons (.jstr " A ") .nil)) .nil)))
        (.cons "num" (.jnum ⟨3, 0⟩) (.cons "zeta" (.jstr "  Hello ") .nil)))
      (.cons "alpha" (.jobj (.cons "x" (.jarr (.cons (.jstr "a") .nil))
        (.cons "created_at" (.jstr "t") .nil)))
        (.cons "num" (.jnum ⟨3, 0⟩) (.cons "zeta" (.jstr "hello") .nil)))
    refine SimilarFields.cons _ _ _ _ _ ?_ ?_
    · apply SimilarVal.objS
      show SimilarFields
        (.cons "x" (.jarr (.cons (.jstr " A ") .nil)) .nil)
        (.cons "x" (.jarr (.cons (.jstr "a") .nil)) .nil)
      exact SimilarFields.cons _ _ _ _ _
        (SimilarVal.arrS _ _
          (SimilarArr.cons _ _ _ _ (SimilarVal.strS _ _ rfl) SimilarArr.nil))
        SimilarFields.nil
    · exact SimilarFields.cons _ _ _ _ _ (SimilarVal.numS _)
        (SimilarFields.cons _ _ _ _ _ (SimilarVal.strS _ _ rfl) SimilarFields.nil)
  exact ⟨h, c3_semantic_hash_invariance _ _ h⟩

/-! ## Claim C4 — field-name aliases and the fingerprint (corrected)

`generateEventHash` hashes the raw payload *before* any alias resolution
(alias mapping lives in the Normalizer, which runs after the duplicate
check), so the literal key names are part of the digest input. -/

/-- **C4 counterexample**: the payloads `\x7b amount: 5 \x7d` and
`\x7b value: 5 \x7d` differ only in which recognized amount alias is used,
yet their fingerprints differ. -/
theorem c4_alias_invariance_counterexample :
    ¬ (generateEventHash (.jobj (.cons "amount" (.jnum ⟨5, 0⟩) .nil))
        = generateEventHash (.jobj (.cons "value" (.jnum ⟨5, 0⟩) .nil))) := by decide

/-- **C4 (amended)**: `generateEventHash` operates on the payload's literal
key names (only sorting them, dropping receipt-metadata keys and folding
string-value case/whitespace); it performs no alias resolution, so payloads
differing only in which recognized alias names a canonical field produce
different digest inputs and hence different fingerprints — here across all
four alias families. -/
theorem c4_alias_choice_changes_fingerprint :
    generateEventHash (.jobj (.cons "source" (.jstr "client_a") .nil))
      ≠ generateEventHash (.jobj (.cons "client_id" (.jstr "client_a") .nil)) ∧
    generateEventHash (.jobj (.cons "amount" (.jnum ⟨7, 0⟩) .nil))
      ≠ generateEventHash (.jobj (.cons "sum" (.jnum ⟨7, 0⟩) .nil)) ∧
    generateEventHash (.jobj (.cons "metric" (.jstr "revenue") .nil))
      ≠ generateEventHash (.jobj (.cons "event_type" (.jstr "revenue") .nil)) ∧
    generateEventHash (.jobj (.cons "timestamp" (.jstr "2024-01-02") .nil))
      ≠ generateEventHash (.jobj (.cons "time" (.jstr "2024-01-02") .nil)) := by decide
